import Mathlib

/-!
Shallow embedding of the QIIME 2 action-invocation and execution engine
(`qiime2/sdk/action.py`, `qiime2/sdk/context/{base,parallel,asynchronous}.py`)
together with proofs of the specification claims about it.

Python values that the engine treats opaquely (coerced inputs, artifacts,
provenance records) are represented by small inductive types; dicts whose
insertion order matters are represented by association lists; Python
exceptions are represented by an explicit `PyError` sum threaded through
`Except`.
-/

namespace Qiime2

/-- Errors raised by the embedded code paths. -/
inductive PyError where
  | valueError (msg : String)
  | typeError (msg : String)
  | keyError
  | indexError
deriving DecidableEq

/-- An opaque coerced input value, as handed back by the signature
collaborator's `coerce_user_input`.  The engine only compares these for
equality, so atoms suffice. -/
inductive Value where
  | int (n : Int)
  | str (s : String)
  | boolean (b : Bool)
  | noneV
deriving DecidableEq

/-! ### Invocation fingerprints (`Context._check_cache`, base.py lines 99-117) -/

/-- `plugin_id.replace('_', '-')` from `Context._check_cache`. -/
def normalizePluginId (pluginId : String) : String :=
  ⟨pluginId.data.map (fun c => if c = '_' then '-' else c)⟩

/-- The cache key built by `Context._check_cache`: the `'plugin:action'`
identity string paired with the ordered argument bindings.  In the Python a
binding is a single-entry dict `{input_name: value}`; a single-entry dict is
exactly a (name, value) pair, which is how it is represented here.

Modelled from the spec: the class `HashableInvocation` itself lives outside
the embedded sources (only its construction site is in `base.py`); per the
spec it is a "hashable pair of (plugin:action identity, ordered sequence of
single-entry {parameter-name: value} bindings)" whose equality and hash are
process-independent, i.e. pure functions of that data. -/
structure HashableInvocation where
  pluginAction : String
  arguments : List (String × Value)
deriving DecidableEq

/-- Fingerprint construction from `Context._check_cache`:
`plugin_action = f'{plugin}:{action}'` with the plugin id normalized, and
`arguments = [{k: v} for k, v in callable_args.items()]` keeping the coerced
arguments in declaration order. -/
def checkCacheInvocation (pluginId actionId : String)
    (callableArgs : List (String × Value)) : HashableInvocation :=
  { pluginAction := normalizePluginId pluginId ++ ":" ++ actionId
    arguments := callableArgs }

/-- Deterministic hash of an atom. -/
def valueHash : Value → Nat
  | .int n => 7 + 4 * (2 * n.natAbs + (if n < 0 then 1 else 0))
  | .str s => 11 + 4 * s.foldl (fun h c => h * 31 + c.toNat) 7
  | .boolean b => 13 + 4 * (cond b 1 0)
  | .noneV => 17

/-- Deterministic hash of a string. -/
def stringHash (s : String) : Nat :=
  s.foldl (fun h c => h * 31 + c.toNat) 5381

/-- Modelled from the spec: `HashableInvocation.__hash__` is outside the
embedded sources; the spec requires it to "hash/compare equal across
processes for equal inputs", i.e. to be a pure function of the fingerprint
data.  `processSeed` stands for whatever per-process hash randomization a
process carries; a process-independent hash does not consult it. -/
def invocationHashInProcess (processSeed : Nat) (inv : HashableInvocation) : Nat :=
  let _ := processSeed
  inv.arguments.foldl
    (fun h kv => h * 1000003 + stringHash kv.1 * 31 + valueHash kv.2)
    (stringHash inv.pluginAction)

/-! ### Cached-collection reconstruction
(`_validate_collection` and `Context._load_cache`, base.py lines 16-28 and 126-156) -/

/-- The key of one recorded collection element in the persistent-pool index:
its declared collection total, its position, and the item name it will be
stored under when reloaded. -/
structure ElemInfo where
  total : Nat
  idx : Nat
  item_name : String
deriving DecidableEq

/-- One recorded output in the index entry for an invocation: either a single
artifact reference or an ordered mapping of element keys to references. -/
inductive CachedOutput where
  | single (ref : Nat)
  | collection (entries : List (ElemInfo × Nat))
deriving DecidableEq

/-- One declared output of the action's signature, as consumed by
`Context._load_cache`: its name and whether its qiime type is a collection
type. -/
structure OutputSpec where
  name : String
  isCollection : Bool
deriving DecidableEq

/-- A reconstructed output handed back from the cache: a loaded artifact or a
`ResultCollection` (ordered mapping of item name to loaded artifact). -/
inductive LoadedOutput where
  | single (artifact : Nat)
  | collection (elems : List (String × Nat))
deriving DecidableEq

/-- The warning text of `_validate_collection`'s failure branch. -/
def incompleteCollectionWarning : String :=
  "Incomplete collection found when recycling, collection will be remade"

/-- `_validate_collection` (base.py lines 16-28).  For an empty
`collection_order` the Python comprehension inside `all([...])` never touches
`collection_order[0]`, `all([])` is `True`, so the `or` evaluates
`len(collection_order) != collection_order[0].total`, whose subscript raises
`IndexError`.  For a non-empty list the function returns `False` after
emitting a warning when the totals disagree or the count differs from the
declared total, and `True` otherwise. -/
def validateCollection (collectionOrder : List ElemInfo) :
    Except PyError (Bool × List String) :=
  match collectionOrder with
  | [] => .error .indexError
  | first :: _ =>
    if ¬ (∀ elem ∈ collectionOrder, elem.total = first.total) ∨
        collectionOrder.length ≠ first.total then
      .ok (false, [incompleteCollectionWarning])
    else
      .ok (true, [])

/-- Stable insertion of an element into a list sorted by `idx`. -/
def insertByIdx (e : ElemInfo) : List ElemInfo → List ElemInfo
  | [] => [e]
  | y :: ys => if e.idx ≤ y.idx then e :: y :: ys else y :: insertByIdx e ys

/-- `collection_order.sort(key=lambda x: x.idx)`: Python's stable sort,
embedded as stable insertion sort. -/
def sortByIdx : List ElemInfo → List ElemInfo
  | [] => []
  | x :: xs => insertByIdx x (sortByIdx xs)

/-- Python dict subscripting with a string key: `KeyError` when absent. -/
def dictGet {α : Type} (d : List (String × α)) (k : String) : Except PyError α :=
  match d.find? (fun kv => decide (kv.1 = k)) with
  | some kv => .ok kv.2
  | none => .error .keyError

/-- `cached_collection[elem_info]`: dict subscripting keyed by the element
info record. -/
def dictGetElem (d : List (ElemInfo × Nat)) (k : ElemInfo) : Except PyError Nat :=
  match d.find? (fun kv => decide (kv.1 = k)) with
  | some kv => .ok kv.2
  | none => .error .keyError

/-- The element-loading loop of `Context._load_cache`: for each key in the
sorted order, fetch the recorded reference and load it through the persistent
pool (`load`, which may raise `KeyError` when the pool was destroyed), filing
the result under the element's item name. -/
def loadCollectionElems (load : Nat → Except PyError Nat)
    (cachedCollection : List (ElemInfo × Nat)) :
    List ElemInfo → Except PyError (List (String × Nat))
  | [] => .ok []
  | info :: rest =>
    match dictGetElem cachedCollection info with
    | .error e => .error e
    | .ok ref =>
      match load ref with
      | .error e => .error e
      | .ok loaded =>
        match loadCollectionElems load cachedCollection rest with
        | .error e => .error e
        | .ok tail => .ok ((info.item_name, loaded) :: tail)

/-- `Context._load_cache` (base.py lines 126-156): walk the declared outputs
in order; a collection-typed output is validated (`_validate_collection`) and
on failure the whole lookup returns `None` (a miss, warnings already
emitted); on success its elements are loaded in `idx` order; a
non-collection output is loaded directly.  The returned pair carries the
reconstructed `Results` (or `none` for a miss) and the warnings emitted. -/
def loadCache (load : Nat → Except PyError Nat)
    (cachedOutputs : List (String × CachedOutput)) :
    List OutputSpec →
      Except PyError (Option (List (String × LoadedOutput)) × List String)
  | [] => .ok (some [], [])
  | spec :: rest =>
    match dictGet cachedOutputs spec.name with
    | .error e => .error e
    | .ok cached =>
      if spec.isCollection then
        match cached with
        | .collection entries =>
          match validateCollection (entries.map (·.1)) with
          | .error e => .error e
          | .ok (false, warns) => .ok (none, warns)
          | .ok (true, warns) =>
            match loadCollectionElems load entries
                (sortByIdx (entries.map (·.1))) with
            | .error e => .error e
            | .ok elems =>
              match loadCache load cachedOutputs rest with
              | .error e => .error e
              | .ok (none, restWarns) => .ok (none, warns ++ restWarns)
              | .ok (some restLoaded, restWarns) =>
                .ok (some ((spec.name, .collection elems) :: restLoaded),
                  warns ++ restWarns)
        | .single _ => .error (.typeError "collection output stored as single ref")
      else
        match cached with
        | .single ref =>
          match load ref with
          | .error e => .error e
          | .ok loaded =>
            match loadCache load cachedOutputs rest with
            | .error e => .error e
            | .ok (none, restWarns) => .ok (none, restWarns)
            | .ok (some restLoaded, restWarns) =>
              .ok (some ((spec.name, .single loaded) :: restLoaded), restWarns)
        | .collection _ => .error (.typeError "single output stored as collection")

/-- The tail of `Context._check_cache` (base.py lines 116-124): when the
fingerprint is in the index, attempt `_load_cache`; `except KeyError: pass`
turns a destroyed-pool `KeyError` into a miss; any other exception (such as
the `IndexError` from an empty recorded collection) propagates. -/
def checkCache (inIndex : Bool)
    (loadResult : Except PyError (Option (List (String × LoadedOutput)) × List String)) :
    Except PyError (Option (List (String × LoadedOutput)) × List String) :=
  if inIndex then
    match loadResult with
    | .error .keyError => .ok (none, [])
    | other => other
  else .ok (none, [])

/-- What `Context._callable_action_` does with an invocation. -/
inductive ExecutionOutcome where
  | cached (results : List (String × LoadedOutput))
  | dispatched
deriving DecidableEq

/-- `Context._callable_action_` (base.py lines 85-97): when a persistent
(named) pool is active and the cache probe produced a truthy `Results`
object, return it; otherwise dispatch the action for full execution.  An
empty `Results` is falsy in Python, hence also dispatches. -/
def callableAction (namedPoolActive : Bool)
    (checkCacheResult :
      Except PyError (Option (List (String × LoadedOutput)) × List String)) :
    Except PyError ExecutionOutcome :=
  if namedPoolActive then
    match checkCacheResult with
    | .error e => .error e
    | .ok (some results, _) =>
      if results.isEmpty then .ok .dispatched else .ok (.cached results)
    | .ok (none, _) => .ok .dispatched
  else .ok .dispatched

/-! ### Pipeline output aliasing (`Pipeline._callable_executor_`,
action.py lines 473-490) -/

/-- A materialized result: an underlying data identity (what aliasing
preserves), the name it is filed under, and the provenance record it is
attached to. -/
structure Result where
  dataId : Nat
  name : String
  prov : Nat
deriving DecidableEq

/-- Modelled from the spec: the concrete `_alias` implementation lives
outside the embedded sources (only the abstract `IResult._alias`
declaration is present); per the spec an alias is a relabeling, not a copy:
the result is relabeled under the new name and the pipeline's provenance
while the underlying data identity is preserved. -/
def aliasResult (r : Result) (newName : String) (newProv : Nat) : Result :=
  { r with name := newName, prov := newProv }

/-- Modelled from the spec: `create_collection_name` lives outside the
embedded sources; per the spec it synthesizes an element name as a
deterministic function of (output name, element key, element index,
collection size). -/
def createCollectionName (name key : String) (idx size : Nat) : String :=
  name ++ "-" ++ key ++ "-" ++ toString idx ++ "-" ++ toString size

/-- The collection branch of `Pipeline._callable_executor_` (action.py lines
474-486): `size = len(output)`; for each `(idx, (key, value))` in
`enumerate(output.items())` the element is aliased under
`create_collection_name(name=name, key=key, idx=idx, size=size)` and filed
into the fresh aliased collection under `str(key)`. -/
def aliasCollectionOutput (name : String) (prov : Nat)
    (output : List (String × Result)) : List (String × Result) :=
  output.enum.map (fun p =>
    (p.2.1,
      aliasResult p.2.2 (createCollectionName name p.2.1 p.1 output.length) prov))

/-! ### Root-pipeline output resolution (`_coerce_pipeline_outputs`,
action.py lines 24-46) -/

/-- A value returned by a pipeline's computation: a materialized result, a
deferred handle (proxy) holding a slot of a pending computation, a
collection (a `ResultCollection`, or a raw dict or list about to be coerced
into one — all three are `coll` here), or Python `None`. -/
inductive OutVal where
  | res (r : Result)
  | proxy (slot : Nat)
  | coll (elems : List (String × OutVal))
  | noneV

/-- Whether a value is a deferred handle. -/
def OutVal.isProxyVal : OutVal → Bool
  | .proxy _ => true
  | _ => false

mutual
/-- No deferred handle remains anywhere inside the value. -/
def proxyFree : OutVal → Bool
  | .res _ => true
  | .proxy _ => false
  | .coll elems => proxyFreeList elems
  | .noneV => true

/-- `proxyFree` over a collection's elements. -/
def proxyFreeList : List (String × OutVal) → Bool
  | [] => true
  | kv :: rest => proxyFree kv.2 && proxyFreeList rest
end

/-- A value a pipeline computation may legally return under the addressable
result contract: a scalar (result or deferred handle), `None`, or a flat
collection whose elements are scalars. -/
def wellShaped : OutVal → Bool
  | .coll elems => elems.all (fun kv => kv.2.isProxyVal ||
      match kv.2 with | .res _ => true | _ => false)
  | _ => true

/-- Modelled from the spec: `.result()` forces a value at the point it is
demanded — a deferred handle blocks until its future resolves (`env` gives
the resolved value of each slot), while an already-materialized result or
collection returns itself (the standardized `IResult.result` interface). -/
def forceOutVal (env : Nat → OutVal) : OutVal → OutVal
  | .proxy slot => env slot
  | v => v

/-- The body of `_coerce_pipeline_outputs` for one output (action.py lines
30-44): raw dicts and lists are coerced to `ResultCollection` (identity in
this embedding, where all three are `coll`); when the context has no parent
(root pipeline) every non-`None` output is forced via `.result()`, and when
the forced value is a `ResultCollection` each element is forced as well;
with a parent (nested pipeline) the output passes through unforced. -/
def coercePipelineOutput (isRoot : Bool) (env : Nat → OutVal)
    (output : OutVal) : OutVal :=
  match isRoot, output with
  | true, .noneV => .noneV
  | true, o =>
    match forceOutVal env o with
    | .coll elems => .coll (elems.map (fun kv => (kv.1, forceOutVal env kv.2)))
    | v => v
  | false, o => o

/-- `_coerce_pipeline_outputs` (action.py lines 24-46) over the whole output
tuple. -/
def coercePipelineOutputs (isRoot : Bool) (env : Nat → OutVal)
    (outputs : List OutVal) : List OutVal :=
  outputs.map (coercePipelineOutput isRoot env)

/-! ### Parallel cache probe (`_contains_proxies` and
`ParallelContext._callable_action_`, parallel.py lines 61-66 and 84-102) -/

/-- An argument to a parallel action call: a deferred handle, an ordinary
value, or a list or dict of arguments. -/
inductive Arg where
  | proxy (slot : Nat)
  | value (v : Nat)
  | listA (xs : List Arg)
  | dictA (xs : List (String × Arg))

/-- `isinstance(arg, Proxy)`. -/
def Arg.isProxyArg : Arg → Bool
  | .proxy _ => true
  | _ => false

/-- `_contains_proxies` (parallel.py lines 61-66): the `isinstance` test is
applied to each positional argument and each keyword value itself — there is
no recursion into list or dict arguments. -/
def containsProxies (args : List Arg) (kwargs : List (String × Arg)) : Bool :=
  args.any Arg.isProxyArg || kwargs.any (fun kv => kv.2.isProxyArg)

mutual
/-- The claim's reading of the skip condition, following the spec's words: a
deferred handle anywhere in the argument tree, including nested inside list
or dict arguments, counts. -/
def containsProxyDeep : Arg → Bool
  | .proxy _ => true
  | .value _ => false
  | .listA xs => containsProxyDeepList xs
  | .dictA xs => containsProxyDeepDict xs

/-- `containsProxyDeep` over a list argument. -/
def containsProxyDeepList : List Arg → Bool
  | [] => false
  | x :: rest => containsProxyDeep x || containsProxyDeepList rest

/-- `containsProxyDeep` over a dict argument. -/
def containsProxyDeepDict : List (String × Arg) → Bool
  | [] => false
  | kv :: rest => containsProxyDeep kv.2 || containsProxyDeepDict rest
end

/-- Deep skip condition over the whole argument list, per the claim's
wording. -/
def containsProxiesDeep (args : List Arg) (kwargs : List (String × Arg)) : Bool :=
  containsProxyDeepList args || containsProxyDeepDict kwargs

/-- The probe guard of `ParallelContext._callable_action_` (parallel.py
lines 95-97): `self.cache.named_pool is not None and not
_contains_proxies(*args, **kwargs) and (cached_results := ...)` —
`_check_cache` is evaluated (the probe attempted) exactly when the named
pool is active and `_contains_proxies` returned `False`. -/
def parallelProbeAttempted (namedPoolActive : Bool)
    (args : List Arg) (kwargs : List (String × Arg)) : Bool :=
  namedPoolActive && !(containsProxies args kwargs)

/-- `ParallelContext._callable_action_` (parallel.py lines 84-102): return
the truthy probed results when the guard passed, otherwise dispatch the
action for execution.  `cachedResults` stands for what `_check_cache` would
return if evaluated. -/
def parallelCallableAction (namedPoolActive : Bool)
    (args : List Arg) (kwargs : List (String × Arg))
    (cachedResults : Option (List (String × LoadedOutput))) : ExecutionOutcome :=
  if parallelProbeAttempted namedPoolActive args kwargs then
    match cachedResults with
    | some r => if r.isEmpty then .dispatched else .cached r
    | none => .dispatched
  else .dispatched

/-! ### Parallel dispatch (`ParallelContext._dispatch_`, parallel.py
lines 104-218) -/

/-- Observable steps of `ParallelContext._dispatch_` after the
argument-mapping walk. -/
inductive DispatchEvent where
  | executorTypeLookup (executor : String)
  | taskSubmitted (executor : String)
  | ranInline
deriving DecidableEq

/-- The result of a parallel dispatch. -/
inductive DispatchResult where
  | inlineResults
  | proxyResults (executorType : String)
deriving DecidableEq

/-- Executor-name routing (parallel.py lines 139-143): when the plugin
appears in the routing table, look the action up there with fallback
`'default'`; otherwise `'default'`. -/
def resolveExecutorName (routing : List (String × List (String × String)))
    (pluginId actionId : String) : String :=
  match routing.find? (fun kv => decide (kv.1 = pluginId)) with
  | some kv =>
    match kv.2.find? (fun kv₂ => decide (kv₂.1 = actionId)) with
    | some kv₂ => kv₂.2
    | none => "default"
  | none => "default"

/-- The error message of the config guard (parallel.py lines 202-203). -/
def noParallelConfigMsg : String :=
  "You must load a parallel config before running in parallel."

/-- The tail of `ParallelContext._dispatch_` (parallel.py lines 137-218)
after argument mapping: the routed executor name is resolved; a `Pipeline`
runs inline on the calling thread; a leaf action first hits the config
guard — `ValueError` when `PARALLEL_CONFIG.parallel_config` is `None` — and
only past the guard is the executor's type looked up
(`executor_name_type_mapping[executor]`) and the task submitted via
`python_app`, returning a deferred `ProxyResults` handle.  The event list
records what actually happened, in order. -/
def parallelDispatch (isPipeline : Bool) (configLoaded : Bool)
    (executorTypes : List (String × String))
    (routing : List (String × List (String × String)))
    (pluginId actionId : String) :
    List DispatchEvent × Except PyError DispatchResult :=
  let executor := resolveExecutorName routing pluginId actionId
  if isPipeline then
    ([.ranInline], .ok .inlineResults)
  else if configLoaded = false then
    ([], .error (.valueError noParallelConfigMsg))
  else
    match dictGet executorTypes executor with
    | .error e => ([.executorTypeLookup executor], .error e)
    | .ok ty =>
      ([.executorTypeLookup executor, .taskSubmitted executor],
        .ok (.proxyResults ty))

/-! ### Output cardinality (`Action._bind`, action.py lines 221-235, and
`Method._callable_executor_`, action.py lines 358-379) -/

/-- A Python return value as seen by `tuplize`: either a tuple of values or
a single value. -/
inductive PyRet where
  | tuple (vs : List Nat)
  | single (v : Nat)
deriving DecidableEq

/-- Modelled from the spec: `tuplize` lives outside the embedded sources;
per the call-site comment it just makes sure there is an iterable even if
there was only one output — a tuple stays itself, anything else becomes a
one-tuple. -/
def tuplize : PyRet → List Nat
  | .tuple vs => vs
  | .single v => [v]

/-- The post-executor check of `Action._bind` (action.py lines 224-235): the
returned output count must equal the declared output count, otherwise a
`ValueError` naming both counts; on success the outputs are zipped with the
declared output names into a `Results` object. -/
def bindWrapOutputs (declaredOutputs : List String) (outputs : List Nat) :
    Except PyError (List (String × Nat)) :=
  if outputs.length ≠ declaredOutputs.length then
    .error (.valueError
      ("Number of callable outputs must match number of outputs defined " ++
        "in signature: " ++ toString outputs.length ++ " != " ++
        toString declaredOutputs.length))
  else
    .ok (declaredOutputs.zip outputs)

/-- `Method._callable_executor_` (action.py lines 358-379): the raw return
is tuplized; its length must match the number of solved output types
(`TypeError` naming both counts); each view is then coerced to a typed
artifact (`coerce` stands for the signature collaborator's
`coerce_given_outputs`). -/
def methodCallableExecutor (coerce : Nat → Nat) (outputTypes : List Nat)
    (ret : PyRet) : Except PyError (List Nat) :=
  let outputViews := tuplize ret
  if outputViews.length ≠ outputTypes.length then
    .error (.typeError
      ("Number of output views must match number of output semantic " ++
        "types: " ++ toString outputViews.length ++ " != " ++
        toString outputTypes.length))
  else
    .ok (outputViews.map coerce)

/-! ### Reference registration (`Context.add_reference`, base.py
lines 171-184) -/

/-- A registered value: its payload identity and whether the handle is
backed by data in the cache. -/
structure Ref where
  payload : Nat
  cacheBacked : Bool
deriving DecidableEq

/-- The cache shared by one context tree: the always-present process-local
pool and the optional persistent (named) pool. -/
structure CacheState where
  processPool : List Ref
  namedPool : Option (List Ref)
deriving DecidableEq

/-- Modelled from the spec: `process_pool.save` lives outside the embedded
sources; it stores the value in the process-local pool and hands back a
handle backed by the data now in the cache. -/
def processPoolSave (c : CacheState) (ref : Ref) : CacheState × Ref :=
  let newRef : Ref := { payload := ref.payload, cacheBacked := true }
  ({ c with processPool := c.processPool ++ [newRef] }, newRef)

/-- Modelled from the spec: `named_pool.save` mirrors a value into the
persistent pool. -/
def namedPoolSave (c : CacheState) (ref : Ref) : CacheState :=
  match c.namedPool with
  | some pool => { c with namedPool := some (pool ++ [ref]) }
  | none => c

/-- Observable steps of `Context.add_reference`, with the cache lock made
explicit. -/
inductive RegEvent where
  | lockAcquired
  | savedProcess (r : Ref)
  | savedNamed (r : Ref)
  | lockReleased
deriving DecidableEq

/-- `Context.add_reference` (base.py lines 171-184): under the cache lock,
save the value into the process pool; when a persistent pool is active,
mirror the new process-local handle into it; return the process-local
handle. -/
def addReference (c : CacheState) (ref : Ref) :
    CacheState × Ref × List RegEvent :=
  let (c₁, newRef) := processPoolSave c ref
  match c₁.namedPool with
  | some _ =>
    (namedPoolSave c₁ newRef, newRef,
      [.lockAcquired, .savedProcess newRef, .savedNamed newRef, .lockReleased])
  | none =>
    (c₁, newRef, [.lockAcquired, .savedProcess newRef, .lockReleased])

/-! ### Context construction (`Context.__init__`, base.py lines 32-48) -/

/-- A constructed execution scope. -/
structure ContextState where
  cache : CacheState
  hasAction : Bool
  hasParent : Bool
deriving DecidableEq

/-- `Context.__init__` (base.py lines 32-48): a context with a parent
inherits the parent's cache; a parentless context acquires the shared cache
(and, under the cache lock, triggers the one-time persistent-pool index
construction).  The guard then raises `ValueError` exactly when the context
has no action but does have a parent: "Only parentless contexts can be
instantiated without an action_obj". -/
def contextInit (hasAction : Bool) (parent : Option ContextState)
    (sharedCache : CacheState) : Except PyError ContextState :=
  let cache := match parent with
    | some p => p.cache
    | none => sharedCache
  if hasAction = false ∧ parent ≠ none then
    .error (.valueError
      "Only parentless contexts can be instantiated without an action_obj")
  else
    .ok { cache := cache, hasAction := hasAction, hasParent := parent.isSome }

/-! ## Theorems -/

/-- Claim C1: two invocations of the same (plugin, action) with equal coerced
inputs produce fingerprints that compare equal and hash equal regardless of
which process computes the hash; the fingerprint is exactly the pair of the
normalized `plugin:action` string and the ordered (name, value) bindings; and
changing one input value changes the fingerprint. -/
theorem checkCacheInvocation_fingerprint :
    (∀ (seed₁ seed₂ : Nat) (pluginId actionId : String)
        (cargs₁ cargs₂ : List (String × Value)), cargs₁ = cargs₂ →
      checkCacheInvocation pluginId actionId cargs₁ =
        checkCacheInvocation pluginId actionId cargs₂ ∧
      invocationHashInProcess seed₁ (checkCacheInvocation pluginId actionId cargs₁) =
        invocationHashInProcess seed₂ (checkCacheInvocation pluginId actionId cargs₂)) ∧
    (∀ pluginId actionId cargs,
      (checkCacheInvocation pluginId actionId cargs).pluginAction =
        normalizePluginId pluginId ++ ":" ++ actionId ∧
      (checkCacheInvocation pluginId actionId cargs).arguments = cargs) ∧
    normalizePluginId "my_plugin" = "my-plugin" ∧
    checkCacheInvocation "my_plugin" "act" [("x", Value.int 0)] ≠
      checkCacheInvocation "my_plugin" "act" [("x", Value.int 1)] := by
  refine ⟨?_, ?_, ?_, ?_⟩
  · rintro seed₁ seed₂ pluginId actionId cargs₁ cargs₂ rfl
    exact ⟨rfl, rfl⟩
  · exact fun pluginId actionId cargs => ⟨rfl, rfl⟩
  · decide
  · decide

/-- Witness for C1 at concrete inputs: the same coerced argument list gives
the same fingerprint and the same hash in two different processes. -/
theorem checkCacheInvocation_fingerprint_witness :
    checkCacheInvocation "my_plugin" "act" [("x", Value.int 3)] =
      checkCacheInvocation "my_plugin" "act" [("x", Value.int 3)] ∧
    invocationHashInProcess 0
        (checkCacheInvocation "my_plugin" "act" [("x", Value.int 3)]) =
      invocationHashInProcess 99
        (checkCacheInvocation "my_plugin" "act" [("x", Value.int 3)]) :=
  checkCacheInvocation_fingerprint.1 0 99 "my_plugin" "act" _ _ rfl

theorem insertByIdx_length (e : ElemInfo) (l : List ElemInfo) :
    (insertByIdx e l).length = l.length + 1 := by
  induction l with
  | nil => rfl
  | cons y ys ih =>
    rw [insertByIdx]
    split_ifs <;> simp [ih]

theorem sortByIdx_length (l : List ElemInfo) :
    (sortByIdx l).length = l.length := by
  induction l with
  | nil => rfl
  | cons x xs ih =>
    rw [sortByIdx, insertByIdx_length, ih]
    simp

theorem loadCollectionElems_length (load : Nat → Except PyError Nat)
    (cc : List (ElemInfo × Nat)) :
    ∀ (order : List ElemInfo) (elems : List (String × Nat)),
      loadCollectionElems load cc order = .ok elems →
      elems.length = order.length := by
  intro order
  induction order with
  | nil =>
    intro elems h
    simp only [loadCollectionElems] at h
    cases h
    rfl
  | cons info rest ih =>
    intro elems h
    simp only [loadCollectionElems] at h
    split at h
    · cases h
    · split at h
      · cases h
      · split at h
        · cases h
        · cases h
          simp only [List.length_cons]
          rename_i tail heq
          rw [ih tail heq]

theorem validateCollection_ok_true_iff (first : ElemInfo) (rest : List ElemInfo)
    (w : List String) :
    validateCollection (first :: rest) = .ok (true, w) ↔
      (w = [] ∧ (∀ e ∈ first :: rest, e.total = first.total) ∧
        (first :: rest).length = first.total) := by
  rw [validateCollection]
  split_ifs with hcond
  · constructor
    · intro h
      simp at h
    · rintro ⟨-, hall, hlen⟩
      rcases hcond with hc | hc
      · exact absurd hall hc
      · exact absurd hlen hc
  · push_neg at hcond
    constructor
    · intro h
      injection h with h
      injection h with h₁ h₂
      exact ⟨h₂.symm, hcond.1, hcond.2⟩
    · rintro ⟨rfl, -, -⟩
      rfl

theorem loadCache_some_collection (load : Nat → Except PyError Nat)
    (cachedOutputs : List (String × CachedOutput)) :
    ∀ (outputs : List OutputSpec) (loaded : List (String × LoadedOutput))
      (warns : List String),
      loadCache load cachedOutputs outputs = .ok (some loaded, warns) →
      ∀ spec ∈ outputs, spec.isCollection = true →
        ∃ entries elems,
          dictGet cachedOutputs spec.name = .ok (.collection entries) ∧
          validateCollection (entries.map (·.1)) = .ok (true, []) ∧
          (spec.name, LoadedOutput.collection elems) ∈ loaded ∧
          elems.length = entries.length := by
  intro outputs
  induction outputs with
  | nil =>
    intro loaded warns h spec hmem
    exact absurd hmem (List.not_mem_nil spec)
  | cons spec' rest ih =>
    intro loaded warns h spec hmem hcoll
    simp only [loadCache] at h
    split at h
    · cases h
    · rename_i cached hdict
      split at h
      · rename_i hsc
        split at h
        · rename_i entries
          split at h
          · cases h
          · cases h
          · rename_i vwarns hval
            split at h
            · cases h
            · rename_i elems helems
              split at h
              · cases h
              · cases h
              · rename_i restLoaded restWarns hrest
                cases h
                have hvwarns : vwarns = [] := by
                  rcases hentries : entries.map (fun p => p.1) with _ | ⟨f, r⟩
                  · rw [hentries] at hval
                    simp [validateCollection] at hval
                  · rw [hentries] at hval
                    exact ((validateCollection_ok_true_iff f r vwarns).mp hval).1
                subst hvwarns
                rcases List.mem_cons.mp hmem with rfl | hmem'
                · refine ⟨entries, elems, hdict, hval, List.mem_cons_self _ _, ?_⟩
                  have h₁ := loadCollectionElems_length load entries _ _ helems
                  rw [h₁, sortByIdx_length, List.length_map]
                · obtain ⟨entries₂, elems₂, hd₂, hv₂, hm₂, hl₂⟩ :=
                    ih _ _ hrest spec hmem' hcoll
                  exact ⟨entries₂, elems₂, hd₂, hv₂, List.mem_cons_of_mem _ hm₂, hl₂⟩
        · cases h
      · rename_i hsc
        split at h
        · rename_i ref
          split at h
          · cases h
          · rename_i loadedArtifact hload
            split at h
            · cases h
            · cases h
            · rename_i restLoaded restWarns hrest
              cases h
              rcases List.mem_cons.mp hmem with rfl | hmem'
              · exact absurd hcoll (by simpa using hsc)
              · obtain ⟨entries₂, elems₂, hd₂, hv₂, hm₂, hl₂⟩ :=
                  ih _ _ hrest spec hmem' hcoll
                exact ⟨entries₂, elems₂, hd₂, hv₂, List.mem_cons_of_mem _ hm₂, hl₂⟩
        · cases h

/-- Claim C2: a cached collection entry is accepted only if every recorded
element's declared total equals the first element's total and the element
count equals that total; otherwise the non-fatal recycling warning is emitted
and the lookup is a miss, after which full execution proceeds; an accepted
reconstruction always returns the full collection (as many loaded elements as
recorded ones), never a partial one. -/
theorem loadCache_rejects_incomplete_collections :
    (∀ (first : ElemInfo) (rest : List ElemInfo),
      ((∃ e ∈ first :: rest, e.total ≠ first.total) ∨
        (first :: rest).length ≠ first.total) →
      validateCollection (first :: rest) =
        .ok (false, [incompleteCollectionWarning])) ∧
    (∀ (first : ElemInfo) (rest : List ElemInfo),
      validateCollection (first :: rest) = .ok (true, []) ↔
        ((∀ e ∈ first :: rest, e.total = first.total) ∧
          (first :: rest).length = first.total)) ∧
    (∀ (load : Nat → Except PyError Nat)
        (cachedOutputs : List (String × CachedOutput))
        (outputs : List OutputSpec) (loaded : List (String × LoadedOutput))
        (warns : List String),
      loadCache load cachedOutputs outputs = .ok (some loaded, warns) →
      ∀ spec ∈ outputs, spec.isCollection = true →
        ∃ entries elems,
          dictGet cachedOutputs spec.name = .ok (.collection entries) ∧
          validateCollection (entries.map (·.1)) = .ok (true, []) ∧
          (spec.name, LoadedOutput.collection elems) ∈ loaded ∧
          elems.length = entries.length) ∧
    (∀ (load : Nat → Except PyError Nat)
        (cachedOutputs : List (String × CachedOutput))
        (spec : OutputSpec) (rest : List OutputSpec)
        (entries : List (ElemInfo × Nat)) (warns : List String),
      spec.isCollection = true →
      dictGet cachedOutputs spec.name = .ok (.collection entries) →
      validateCollection (entries.map (·.1)) = .ok (false, warns) →
      loadCache load cachedOutputs (spec :: rest) = .ok (none, warns)) ∧
    (∀ warns : List String,
      checkCache true (.ok (none, warns)) = .ok (none, warns) ∧
      callableAction true (.ok (none, warns)) = .ok .dispatched) := by
  refine ⟨?_, ?_, ?_, ?_, ?_⟩
  · intro first rest hbad
    rw [validateCollection]
    rw [if_pos]
    rcases hbad with ⟨e, hmem, hne⟩ | hlen
    · exact Or.inl (fun hall => hne (hall e hmem))
    · exact Or.inr hlen
  · intro first rest
    rw [validateCollection_ok_true_iff]
    simp
  · intro load cachedOutputs outputs loaded warns h spec hmem hcoll
    exact loadCache_some_collection load cachedOutputs outputs loaded warns
      h spec hmem hcoll
  · intro load cachedOutputs spec rest entries warns hcoll hdict hval
    simp only [loadCache, hdict, hcoll, if_true, hval]
  · intro warns
    exact ⟨rfl, rfl⟩

/-- Witness for C2 at concrete inputs: an entry recording one element that
declares a total of two is rejected with the recycling warning, and the
resulting miss dispatches full execution. -/
theorem loadCache_rejects_incomplete_collections_witness :
    validateCollection [⟨2, 0, "a"⟩] =
      .ok (false, [incompleteCollectionWarning]) ∧
    loadCache (fun r => .ok r) [("out", .collection [(⟨2, 0, "a"⟩, 5)])]
      [⟨"out", true⟩] = .ok (none, [incompleteCollectionWarning]) ∧
    callableAction true (.ok (none, [incompleteCollectionWarning])) =
      .ok .dispatched := by
  refine ⟨?_, ?_, ?_⟩
  · exact loadCache_rejects_incomplete_collections.1 ⟨2, 0, "a"⟩ []
      (Or.inr (by decide))
  · exact loadCache_rejects_incomplete_collections.2.2.2.1
      (fun r => .ok r) [("out", .collection [(⟨2, 0, "a"⟩, 5)])]
      ⟨"out", true⟩ [] [(⟨2, 0, "a"⟩, 5)] [incompleteCollectionWarning]
      rfl rfl
      (loadCache_rejects_incomplete_collections.1 ⟨2, 0, "a"⟩ []
        (Or.inr (by decide)))
  · exact (loadCache_rejects_incomplete_collections.2.2.2.2
      [incompleteCollectionWarning]).2

/-- Claim C10: the completeness check is total only for non-empty recorded
collections.  For at least one recorded element it returns a boolean that is
true exactly when all recorded totals agree with the first element's total
and the element count equals that total; for zero recorded elements it
raises `IndexError` instead of returning, and that `IndexError` is not
caught by the `except KeyError` clause of the probe, so an empty recorded
collection is neither accepted as complete-but-empty nor treated as a
miss. -/
theorem validateCollection_empty_raises :
    validateCollection [] = .error .indexError ∧
    (∀ (first : ElemInfo) (rest : List ElemInfo), ∃ b w,
      validateCollection (first :: rest) = .ok (b, w) ∧
      (b = true ↔ ((∀ e ∈ first :: rest, e.total = first.total) ∧
        (first :: rest).length = first.total))) ∧
    (∀ (load : Nat → Except PyError Nat)
        (cachedOutputs : List (String × CachedOutput))
        (spec : OutputSpec) (rest : List OutputSpec),
      spec.isCollection = true →
      dictGet cachedOutputs spec.name = .ok (.collection []) →
      loadCache load cachedOutputs (spec :: rest) = .error .indexError) ∧
    checkCache true (.error .indexError) = .error .indexError ∧
    callableAction true (.error .indexError) = .error .indexError := by
  refine ⟨rfl, ?_, ?_, rfl, rfl⟩
  · intro first rest
    by_cases hc : (∀ e ∈ first :: rest, e.total = first.total) ∧
        (first :: rest).length = first.total
    · refine ⟨true, [], ?_, iff_of_true rfl hc⟩
      rw [validateCollection_ok_true_iff]
      exact ⟨rfl, hc.1, hc.2⟩
    · refine ⟨false, [incompleteCollectionWarning], ?_,
        iff_of_false (by simp) hc⟩
      rw [validateCollection, if_pos]
      rcases Decidable.not_and_iff_or_not.mp hc with hc' | hc'
      · exact Or.inl hc'
      · exact Or.inr hc'
  · intro load cachedOutputs spec rest hcoll hdict
    simp only [loadCache, hdict, hcoll, if_true, List.map_nil, validateCollection]

/-- Witness for C10 at concrete inputs: a cache entry recording an empty
collection makes the lookup raise `IndexError`, which propagates out of the
probe instead of being treated as a miss. -/
theorem validateCollection_empty_raises_witness :
    loadCache (fun r => .ok r) [("out", .collection [])] [⟨"out", true⟩] =
      .error .indexError ∧
    (∃ b w, validateCollection [⟨1, 0, "a"⟩] = .ok (b, w) ∧
      (b = true ↔ ((∀ e ∈ [(⟨1, 0, "a"⟩ : ElemInfo)], e.total = 1) ∧
        ([(⟨1, 0, "a"⟩ : ElemInfo)]).length = 1))) := by
  constructor
  · exact validateCollection_empty_raises.2.2.1 (fun r => .ok r)
      [("out", .collection [])] ⟨"out", true⟩ [] rfl rfl
  · exact validateCollection_empty_raises.2.1 ⟨1, 0, "a"⟩ []

/-- Claim C3: the collection branch of the pipeline executor produces an
aliased collection with exactly as many elements as the returned collection;
each element keeps its key, is relabeled — same underlying data identity,
new provenance — rather than copied, and receives the name synthesized from
(output name, key, index, collection size); re-running on equal inputs in
the same order reproduces identical names. -/
theorem pipeline_collection_aliasing :
    (∀ (name : String) (prov : Nat) (output₁ output₂ : List (String × Result)),
      output₁ = output₂ →
      aliasCollectionOutput name prov output₁ =
        aliasCollectionOutput name prov output₂) ∧
    (∀ (name : String) (prov : Nat) (output : List (String × Result)),
      (aliasCollectionOutput name prov output).length = output.length) ∧
    (∀ (name : String) (prov : Nat) (output : List (String × Result)) (i : Nat),
      (aliasCollectionOutput name prov output)[i]? =
        (output[i]?).map (fun kv =>
          (kv.1, aliasResult kv.2
            (createCollectionName name kv.1 i output.length) prov))) ∧
    (∀ (r : Result) (n : String) (p : Nat),
      (aliasResult r n p).dataId = r.dataId ∧ (aliasResult r n p).name = n ∧
        (aliasResult r n p).prov = p) := by
  refine ⟨?_, ?_, ?_, ?_⟩
  · rintro name prov output₁ output₂ rfl
    rfl
  · intro name prov output
    simp [aliasCollectionOutput]
  · intro name prov output i
    simp only [aliasCollectionOutput, List.getElem?_map, List.getElem?_enum,
      Option.map_map]
    cases output[i]? <;> rfl
  · intro r n p
    exact ⟨rfl, rfl, rfl⟩

/-- Witness for C3 at a concrete input: a returned collection of three
elements yields exactly three aliased elements, and a re-run on the same
input reproduces them. -/
theorem pipeline_collection_aliasing_witness :
    aliasCollectionOutput "out" 7
        [("a", ⟨1, "x", 0⟩), ("b", ⟨2, "y", 0⟩), ("c", ⟨3, "z", 0⟩)] =
      aliasCollectionOutput "out" 7
        [("a", ⟨1, "x", 0⟩), ("b", ⟨2, "y", 0⟩), ("c", ⟨3, "z", 0⟩)] ∧
    (aliasCollectionOutput "out" 7
        [("a", ⟨1, "x", 0⟩), ("b", ⟨2, "y", 0⟩), ("c", ⟨3, "z", 0⟩)]).length = 3 :=
  ⟨pipeline_collection_aliasing.1 "out" 7 _ _ rfl,
    (pipeline_collection_aliasing.2.1 "out" 7 _).trans rfl⟩

theorem forceOutVal_of_proxyFree (env : Nat → OutVal) :
    ∀ v : OutVal, proxyFree v = true → forceOutVal env v = v := by
  intro v h
  cases v with
  | res r => rfl
  | proxy s => simp [proxyFree] at h
  | coll elems => rfl
  | noneV => rfl

theorem proxyFreeList_map_force (env : Nat → OutVal) :
    ∀ elems : List (String × OutVal), proxyFreeList elems = true →
      proxyFreeList (elems.map (fun kv => (kv.1, forceOutVal env kv.2))) = true := by
  intro elems h
  induction elems with
  | nil => rfl
  | cons kv rest ih =>
    rw [proxyFreeList, Bool.and_eq_true] at h
    simp only [List.map_cons, proxyFreeList]
    rw [forceOutVal_of_proxyFree env kv.2 h.1, Bool.and_eq_true]
    exact ⟨h.1, ih h.2⟩

theorem proxyFreeList_map_force_atomic (env : Nat → OutVal)
    (henv : ∀ slot, proxyFree (env slot) = true) :
    ∀ elems : List (String × OutVal),
      elems.all (fun kv => kv.2.isProxyVal ||
        match kv.2 with | .res _ => true | _ => false) = true →
      proxyFreeList (elems.map (fun kv => (kv.1, forceOutVal env kv.2))) = true := by
  intro elems h
  induction elems with
  | nil => rfl
  | cons kv rest ih =>
    rw [List.all_cons, Bool.and_eq_true] at h
    simp only [List.map_cons, proxyFreeList]
    rw [Bool.and_eq_true]
    refine ⟨?_, ih h.2⟩
    rcases hkv : kv.2 with r | s | es | _
    · rfl
    · exact henv s
    · rw [hkv] at h
      simp [OutVal.isProxyVal] at h
    · rfl

/-- Claim C4: a root pipeline (context with no parent) hands every output to
the caller fully resolved: each output is forced via `.result()`, and the
elements of a collection output that are deferred handles are forced as
well; a nested pipeline's outputs pass through unforced and may remain
deferred.  `env` gives the (proxy-free) values the pending futures resolve
to, and the outputs respect the pipeline result contract. -/
theorem root_pipeline_outputs_resolved :
    (∀ (env : Nat → OutVal) (outputs : List OutVal),
      (∀ slot, proxyFree (env slot) = true) →
      (∀ o ∈ outputs, wellShaped o = true) →
      ∀ v ∈ coercePipelineOutputs true env outputs, proxyFree v = true) ∧
    (∀ (env : Nat → OutVal) (outputs : List OutVal),
      coercePipelineOutputs false env outputs = outputs) ∧
    (∀ env : Nat → OutVal,
      coercePipelineOutputs false env [OutVal.proxy 0] = [OutVal.proxy 0]) := by
  refine ⟨?_, ?_, ?_⟩
  · intro env outputs henv hshape v hv
    rcases List.mem_map.mp hv with ⟨o, ho, rfl⟩
    have hs := hshape o ho
    cases o with
    | res r => rfl
    | proxy s =>
      have h₁ : coercePipelineOutput true env (.proxy s) =
          match env s with
          | .coll elems => .coll (elems.map (fun kv => (kv.1, forceOutVal env kv.2)))
          | v => v := rfl
      rw [h₁]
      rcases hes : env s with r | s' | elems | _
      · rfl
      · have := henv s
        rw [hes] at this
        simp [proxyFree] at this
      · have := henv s
        rw [hes] at this
        rw [proxyFree] at this ⊢
        exact proxyFreeList_map_force env elems this
      · rfl
    | coll elems =>
      have h₁ : coercePipelineOutput true env (.coll elems) =
          .coll (elems.map (fun kv => (kv.1, forceOutVal env kv.2))) := rfl
      rw [h₁, proxyFree]
      rw [wellShaped] at hs
      exact proxyFreeList_map_force_atomic env henv elems hs
    | noneV => rfl
  · intro env outputs
    simp only [coercePipelineOutputs]
    exact List.map_id'' (fun o => rfl) outputs
  · intro env
    rfl

/-- Witness for C4 at concrete inputs: with futures resolving to a concrete
materialized result, a root pipeline returning a deferred handle and a
collection holding a deferred element hands back only proxy-free values. -/
theorem root_pipeline_outputs_resolved_witness :
    proxyFree (OutVal.coll [("k", OutVal.res ⟨4, "r", 9⟩)]) = true :=
  root_pipeline_outputs_resolved.1 (fun _ => OutVal.res ⟨4, "r", 9⟩)
    [OutVal.coll [("k", OutVal.proxy 1)]]
    (fun _ => rfl)
    (fun o ho => by rcases List.mem_singleton.mp ho with rfl; rfl)
    (OutVal.coll [("k", OutVal.res ⟨4, "r", 9⟩)])
    (List.mem_singleton.mpr rfl)

/-- Counterexample to C5 as stated: with an active persistent pool and a
deferred handle nested inside a list argument, the deep skip condition the
claim describes holds, yet `_contains_proxies` reports no proxy, the cache
probe is attempted rather than skipped, and a cache hit is returned instead
of dispatching the action. -/
theorem containsProxies_nested_counterexample :
    containsProxiesDeep [Arg.listA [Arg.proxy 0]] [] = true ∧
    containsProxies [Arg.listA [Arg.proxy 0]] [] = false ∧
    parallelProbeAttempted true [Arg.listA [Arg.proxy 0]] [] = true ∧
    parallelCallableAction true [Arg.listA [Arg.proxy 0]] []
        (some [("o", LoadedOutput.single 1)]) =
      .cached [("o", LoadedOutput.single 1)] :=
  ⟨rfl, rfl, rfl, rfl⟩

/-- Claim C5 (amended): the probe is skipped exactly when a top-level
positional argument or a top-level keyword value is itself a deferred
handle; a handle nested inside a list or dict argument does not skip it;
the probe is attempted only when a persistent pool is active and no
top-level argument is a deferred handle, and a skipped probe always
dispatches the action. -/
theorem parallel_probe_skip_top_level :
    (∀ (namedPoolActive : Bool) (args : List Arg)
        (kwargs : List (String × Arg)),
      parallelProbeAttempted namedPoolActive args kwargs = true ↔
        (namedPoolActive = true ∧ containsProxies args kwargs = false)) ∧
    (∀ (args : List Arg) (kwargs : List (String × Arg)),
      containsProxies args kwargs = true ↔
        ((∃ a ∈ args, a.isProxyArg = true) ∨
          (∃ kv ∈ kwargs, kv.2.isProxyArg = true))) ∧
    (∀ (namedPoolActive : Bool) (args : List Arg)
        (kwargs : List (String × Arg))
        (cached : Option (List (String × LoadedOutput))),
      containsProxies args kwargs = true →
      parallelCallableAction namedPoolActive args kwargs cached =
        .dispatched) := by
  refine ⟨?_, ?_, ?_⟩
  · intro namedPoolActive args kwargs
    simp [parallelProbeAttempted]
  · intro args kwargs
    simp [containsProxies, List.any_eq_true]
  · intro namedPoolActive args kwargs cached h
    simp [parallelCallableAction, parallelProbeAttempted, h]

/-- Witness for the amended C5 at concrete inputs: a top-level deferred
handle makes the call dispatch without probing the cache. -/
theorem parallel_probe_skip_top_level_witness :
    parallelCallableAction true [Arg.proxy 0] []
      (some [("o", LoadedOutput.single 1)]) = .dispatched :=
  parallel_probe_skip_top_level.2.2 true [Arg.proxy 0] []
    (some [("o", LoadedOutput.single 1)]) rfl

/-- Claim C6: dispatching a leaf (non-Pipeline) action through a parallel
context with no parallel configuration loaded raises the configuration
`ValueError` immediately — the event trace is empty, so in particular no
executor lookup and no task submission happened. -/
theorem parallelDispatch_leaf_no_config :
    ∀ (executorTypes : List (String × String))
      (routing : List (String × List (String × String)))
      (pluginId actionId : String),
      parallelDispatch false false executorTypes routing pluginId actionId =
        ([], .error (.valueError noParallelConfigMsg)) ∧
      ∀ ev, ev ∉
        (parallelDispatch false false executorTypes routing
          pluginId actionId).1 := by
  intro executorTypes routing pluginId actionId
  exact ⟨rfl, fun ev => by simp [parallelDispatch]⟩

/-- Witness for C6 at concrete inputs: a leaf action dispatched with no
configuration loaded raises the configuration error with an empty event
trace. -/
theorem parallelDispatch_leaf_no_config_witness :
    parallelDispatch false false [("default", "ThreadPoolExecutor")] [] "p" "a" =
      ([], .error (.valueError noParallelConfigMsg)) :=
  (parallelDispatch_leaf_no_config [("default", "ThreadPoolExecutor")] []
    "p" "a").1

/-- Claim C7: after the executor returns, a returned-output count different
from the declared output count fails with the cardinality `ValueError`
naming both counts; an equal count wraps the outputs into a `Results`
object keyed by the declared names; and a Method with two declared outputs
whose computation returns one value fails with a cardinality error. -/
theorem bind_output_cardinality :
    (∀ (declaredOutputs : List String) (outputs : List Nat),
      outputs.length ≠ declaredOutputs.length →
      bindWrapOutputs declaredOutputs outputs =
        .error (.valueError
          ("Number of callable outputs must match number of outputs defined " ++
            "in signature: " ++ toString outputs.length ++ " != " ++
            toString declaredOutputs.length))) ∧
    (∀ (declaredOutputs : List String) (outputs : List Nat),
      outputs.length = declaredOutputs.length →
      ∃ results, bindWrapOutputs declaredOutputs outputs = .ok results ∧
        results.map Prod.fst = declaredOutputs ∧
        results.map Prod.snd = outputs) ∧
    (∀ (coerce : Nat → Nat) (t₁ t₂ : Nat) (v : Nat),
      methodCallableExecutor coerce [t₁, t₂] (.single v) =
        .error (.typeError
          ("Number of output views must match number of output semantic " ++
            "types: " ++ toString (1 : Nat) ++ " != " ++
            toString (2 : Nat)))) := by
  refine ⟨?_, ?_, ?_⟩
  · intro declaredOutputs outputs h
    simp [bindWrapOutputs, h]
  · intro declaredOutputs outputs h
    refine ⟨declaredOutputs.zip outputs, ?_, ?_, ?_⟩
    · simp [bindWrapOutputs, h]
    · exact List.map_fst_zip declaredOutputs outputs (le_of_eq h.symm)
    · exact List.map_snd_zip declaredOutputs outputs (le_of_eq h)
  · intro coerce t₁ t₂ v
    rfl

/-- Witness for C7 at concrete inputs: two declared outputs and one returned
value fail with the cardinality error; two returned values are wrapped
keyed by the declared names. -/
theorem bind_output_cardinality_witness :
    (∃ msg, bindWrapOutputs ["a", "b"] [1] = .error (.valueError msg)) ∧
    (∃ results, bindWrapOutputs ["a", "b"] [1, 2] = .ok results ∧
      results.map Prod.fst = ["a", "b"] ∧ results.map Prod.snd = [1, 2]) :=
  ⟨⟨_, bind_output_cardinality.1 ["a", "b"] [1] (by decide)⟩,
    bind_output_cardinality.2.1 ["a", "b"] [1, 2] rfl⟩

/-- Claim C8: `add_reference` returns the process-local handle for the
saved value; that handle is in the process pool afterwards; with an active
persistent pool the same handle is mirrored into it, both saves happening
between the lock acquisition and release; with no persistent pool only the
process pool is written. -/
theorem addReference_mirrors_pools :
    ∀ (c : CacheState) (ref : Ref),
      (addReference c ref).2.1 = { payload := ref.payload, cacheBacked := true } ∧
      (addReference c ref).1.processPool =
        c.processPool ++ [(addReference c ref).2.1] ∧
      (∀ pool, c.namedPool = some pool →
        (addReference c ref).1.namedPool =
          some (pool ++ [(addReference c ref).2.1]) ∧
        (addReference c ref).2.2 =
          [.lockAcquired, .savedProcess (addReference c ref).2.1,
            .savedNamed (addReference c ref).2.1, .lockReleased]) ∧
      (c.namedPool = none →
        (addReference c ref).1.namedPool = none ∧
        (addReference c ref).2.2 =
          [.lockAcquired, .savedProcess (addReference c ref).2.1,
            .lockReleased]) := by
  intro c ref
  rcases c with ⟨processPool, namedPool⟩
  cases namedPool with
  | none =>
    refine ⟨rfl, rfl, ?_, ?_⟩
    · intro pool hpool
      cases hpool
    · intro _
      exact ⟨rfl, rfl⟩
  | some pool₀ =>
    refine ⟨rfl, rfl, ?_, ?_⟩
    · intro pool hpool
      cases hpool
      exact ⟨rfl, rfl⟩
    · intro hnone
      cases hnone

/-- Witness for C8 at a concrete cache: with an active (empty) persistent
pool, registering a value mirrors the returned process-local handle into
the persistent pool with the saves under the lock. -/
theorem addReference_mirrors_pools_witness :
    (addReference ⟨[], some []⟩ ⟨5, false⟩).1.namedPool =
      some ([] ++ [(addReference ⟨[], some []⟩ ⟨5, false⟩).2.1]) ∧
    (addReference ⟨[], some []⟩ ⟨5, false⟩).2.2 =
      [.lockAcquired, .savedProcess (addReference ⟨[], some []⟩ ⟨5, false⟩).2.1,
        .savedNamed (addReference ⟨[], some []⟩ ⟨5, false⟩).2.1,
        .lockReleased] :=
  (addReference_mirrors_pools ⟨[], some []⟩ ⟨5, false⟩).2.2.1 [] rfl

/-- Counterexample to C9 as stated: a parentless context constructed without
an action is accepted, not rejected — the code's guard only rejects a
context that has a parent but no action. -/
theorem contextInit_parentless_no_action_ok :
    contextInit false none ⟨[], none⟩ =
      .ok { cache := ⟨[], none⟩, hasAction := false, hasParent := false } := rfl

/-- Claim C9 (amended): constructing a non-root context (one with a parent)
without an action raises the configuration `ValueError` immediately; a
parentless context may be constructed with or without an action, and is the
only kind that can omit it. -/
theorem contextInit_requires_action :
    (∀ (hasAction : Bool) (parent : Option ContextState)
        (sharedCache : CacheState),
      (∃ e, contextInit hasAction parent sharedCache = .error e) ↔
        (hasAction = false ∧ parent ≠ none)) ∧
    (∀ (parent : ContextState) (sharedCache : CacheState),
      contextInit false (some parent) sharedCache =
        .error (.valueError
          "Only parentless contexts can be instantiated without an action_obj")) ∧
    (∀ (hasAction : Bool) (sharedCache : CacheState),
      contextInit hasAction none sharedCache =
        .ok ⟨sharedCache, hasAction, false⟩) := by
  refine ⟨?_, ?_, ?_⟩
  · intro hasAction parent sharedCache
    constructor
    · rintro ⟨e, he⟩
      cases hasAction with
      | false =>
        cases parent with
        | none => cases he
        | some p => exact ⟨rfl, by simp⟩
      | true =>
        cases parent with
        | none => cases he
        | some p => cases he
    · rintro ⟨rfl, hparent⟩
      cases parent with
      | none => exact absurd rfl hparent
      | some p => exact ⟨_, rfl⟩
  · intro parent sharedCache
    rfl
  · intro hasAction sharedCache
    cases hasAction <;> rfl

/-- Witness for the amended C9 at concrete inputs: a context with a parent
but no action is rejected with the configuration error. -/
theorem contextInit_requires_action_witness :
    contextInit false (some ⟨⟨[], none⟩, true, false⟩) ⟨[], none⟩ =
      .error (.valueError
        "Only parentless contexts can be instantiated without an action_obj") :=
  contextInit_requires_action.2.1 ⟨⟨[], none⟩, true, false⟩ ⟨[], none⟩

end Qiime2
